import Mathlib

/-!
# Verification of the GeekMagic rendering core

Shallow embedding of the arithmetic core of the `geekmagic` custom component:
the drawing primitives of `custom_components/geekmagic/renderer.py`
(`draw_bar`, `draw_sparkline`, `_interpolate_catmull_rom`, `dim_color`,
`blend_color`), the slot geometry of `custom_components/geekmagic/layouts/`
(`SplitLayout`, `ThreeColumnLayout`, `HeroLayout`), and the shared widget
helpers of `custom_components/geekmagic/widgets/helpers.py`
(`truncate_text`, `extract_numeric`).

Python `int` values are embedded as `ℤ`, Python `float` values as exact
rationals `ℚ` (the claims under study concern exact linear arithmetic,
truncation and clamping, which the rational model reflects).  Python `int(x)`
truncates toward zero and Python `//` is floor division; both are modelled
explicitly below.  Python strings are embedded as `List Char`.
-/

namespace GeekMagic

/-- Python `int(x)` applied to a real-valued expression: truncation toward
zero, modelled on exact rationals. -/
def truncQ (q : ℚ) : ℤ := if 0 ≤ q then ⌊q⌋ else ⌈q⌉

/-- Python integer floor division `a // b`. -/
def floorDiv (a b : ℤ) : ℤ := Int.fdiv a b

/-- A pixel rectangle `(x1, y1, x2, y2)`, as used throughout the renderer
and the layout engine. -/
structure Rect where
  x1 : ℤ
  y1 : ℤ
  x2 : ℤ
  y2 : ℤ
deriving DecidableEq, Repr

/-- A layout slot: stable index plus its rectangle (`layouts/base.Slot`). -/
structure Slot where
  index : ℤ
  rect : Rect
deriving DecidableEq, Repr

/-- The drawing effect of `Renderer.draw_bar`: the background rectangle that
is always drawn, and the fill rectangle drawn when `fill_width > 0`. -/
structure BarDraw where
  background : Rect
  fill : Option Rect
deriving DecidableEq, Repr

/-- `Renderer.draw_bar` (renderer.py lines 121-147):
`fill_width = int(width * (percent / 100))`; the background rectangle is
always drawn, and the fill rectangle `(x1, y1, x1 + fill_width, y2)` is drawn
exactly when `fill_width > 0`.  No clamping is applied to `fill_width`. -/
def draw_bar (rect : Rect) (percent : ℚ) : BarDraw :=
  let w := rect.x2 - rect.x1
  let fill_width := truncQ ((w : ℚ) * (percent / 100))
  { background := rect
    fill := if 0 < fill_width then some ⟨rect.x1, rect.y1, rect.x1 + fill_width, rect.y2⟩
            else none }

/-- `Renderer.dim_color` (renderer.py lines 631-645): each channel is
`int(channel * factor)`; no clamping. -/
def dim_color (color : ℤ × ℤ × ℤ) (factor : ℚ) : ℤ × ℤ × ℤ :=
  (truncQ ((color.1 : ℚ) * factor),
   truncQ ((color.2.1 : ℚ) * factor),
   truncQ ((color.2.2 : ℚ) * factor))

/-- `Renderer.blend_color` (renderer.py lines 647-667): each channel is
`int(c1 + (c2 - c1) * factor)`; no clamping. -/
def blend_color (color1 color2 : ℤ × ℤ × ℤ) (factor : ℚ) : ℤ × ℤ × ℤ :=
  (truncQ ((color1.1 : ℚ) + ((color2.1 : ℚ) - (color1.1 : ℚ)) * factor),
   truncQ ((color1.2.1 : ℚ) + ((color2.2.1 : ℚ) - (color1.2.1 : ℚ)) * factor),
   truncQ ((color1.2.2 : ℚ) + ((color2.2.2 : ℚ) - (color1.2.2 : ℚ)) * factor))

/-- All three channels of an RGB triple lie in the valid range `[0, 255]`. -/
def validChannels (c : ℤ × ℤ × ℤ) : Prop :=
  0 ≤ c.1 ∧ c.1 ≤ 255 ∧ 0 ≤ c.2.1 ∧ c.2.1 ≤ 255 ∧ 0 ≤ c.2.2 ∧ c.2.2 ≤ 255

instance (c : ℤ × ℤ × ℤ) : Decidable (validChannels c) := by
  unfold validChannels
  infer_instance

/-- Python `min(data)` on a nonempty list (value at `[]` is irrelevant and
never used by the embedded code). -/
def listMin : List ℚ → ℚ
  | [] => 0
  | x :: xs => xs.foldl min x

/-- Python `max(data)` on a nonempty list (value at `[]` is irrelevant and
never used by the embedded code). -/
def listMax : List ℚ → ℚ
  | [] => 0
  | x :: xs => xs.foldl max x

/-- The control points computed by `Renderer.draw_sparkline`
(renderer.py lines 235-245): for each `(i, value)` in `enumerate(data)`,
`x = x1 + (i / (len(data) - 1)) * width` and
`y = y2 - ((value - min_val) / range_val) * height`, where
`range_val = max_val - min_val if max_val != min_val else 1`. -/
def sparklineControlPoints (rect : Rect) (data : List ℚ) : List (ℚ × ℚ) :=
  let w := rect.x2 - rect.x1
  let h := rect.y2 - rect.y1
  let min_val := listMin data
  let max_val := listMax data
  let range_val := if max_val ≠ min_val then max_val - min_val else 1
  data.enum.map fun iv =>
    ((rect.x1 : ℚ) + ((iv.1 : ℚ) / ((data.length : ℚ) - 1)) * (w : ℚ),
     (rect.y2 : ℚ) - ((iv.2 - min_val) / range_val) * (h : ℚ))

/-- One coordinate of the Catmull-Rom spline formula used by
`Renderer._interpolate_catmull_rom` (renderer.py lines 187-202). -/
def catmullRom (p0 p1 p2 p3 t : ℚ) : ℚ :=
  (1/2) * ((2 * p1) + (-p0 + p2) * t + (2 * p0 - 5 * p1 + 4 * p2 - p3) * t ^ 2
    + (-p0 + 3 * p1 - 3 * p2 + p3) * t ^ 3)

/-- `Renderer._interpolate_catmull_rom` (renderer.py lines 149-207):
fewer than 2 points are returned unchanged; exactly 2 points are linearly
interpolated into `num_points` samples; otherwise the endpoints are
phantom-duplicated and each of the `len(pts) - 3` segments is sampled
`max(1, num_points // segments)` times, with the final control point
appended at the end. -/
def interpolate_catmull_rom (points : List (ℚ × ℚ)) (num_points : ℕ) : List (ℚ × ℚ) :=
  if points.length < 2 then points
  else if points.length = 2 then
    let p0 := points.getD 0 (0, 0)
    let p1 := points.getD 1 (0, 0)
    (List.range num_points).map fun i =>
      let t : ℚ := (i : ℚ) / ((num_points : ℚ) - 1)
      (p0.1 + t * (p1.1 - p0.1), p0.2 + t * (p1.2 - p0.2))
  else
    let pts := points.getD 0 (0, 0) :: points ++ [points.getLast?.getD (0, 0)]
    let segments := pts.length - 3
    let pps := max 1 (num_points / segments)
    let body := (List.range segments).flatMap fun i =>
      (List.range pps).map fun j =>
        let t : ℚ := (j : ℚ) / (pps : ℚ)
        let p0 := pts.getD i (0, 0)
        let p1 := pts.getD (i + 1) (0, 0)
        let p2 := pts.getD (i + 2) (0, 0)
        let p3 := pts.getD (i + 3) (0, 0)
        (catmullRom p0.1 p1.1 p2.1 p3.1 t, catmullRom p0.2 p1.2 p2.2 p3.2 t)
    body ++ [pts.getD (pts.length - 2) (0, 0)]

/-- `Renderer.draw_sparkline` (renderer.py lines 209-264), abstracted to the
polyline it draws: `none` when the guard `if not data or len(data) < 2`
returns early (nothing drawn); otherwise the point list that is handed to
`draw.line` — the Catmull-Rom interpolation of the control points when
`smooth` is set and at least 3 control points exist, the raw control points
otherwise. -/
def draw_sparkline (rect : Rect) (data : List ℚ) (smooth : Bool) : Option (List (ℚ × ℚ)) :=
  if data.length < 2 then none
  else
    let cps := sparklineControlPoints rect data
    if smooth ∧ 3 ≤ cps.length then
      some (interpolate_catmull_rom cps (max 50 (floorDiv (rect.x2 - rect.x1) 2)).toNat)
    else some cps

/-- The clamped split fraction stored by `SplitLayout.__init__`
(split.py line 45): `self.ratio = max(0.2, min(0.8, ratio))`. -/
def splitEffective (frac : ℚ) : ℚ := max (1/5) (min (4/5) frac)

/-- `SplitLayout._calculate_slots` (split.py lines 48-112), combined with the
constructor's clamping of the requested fraction.  `width`/`height`/
`padding`/`gap` are the display dimensions and spacing provided by the
layout base class. -/
def splitSlots (horizontal : Bool) (frac : ℚ) (width height padding gap : ℤ) : List Slot :=
  let r := splitEffective frac
  let available_width := width - 2 * padding - gap
  let available_height := height - 2 * padding - gap
  if horizontal then
    let top_height := truncQ (((available_height + gap : ℤ) : ℚ) * r) - floorDiv gap 2
    [⟨0, ⟨padding, padding, width - padding, padding + top_height⟩⟩,
     ⟨1, ⟨padding, padding + top_height + gap, width - padding, height - padding⟩⟩]
  else
    let left_width := truncQ (((available_width + gap : ℤ) : ℚ) * r) - floorDiv gap 2
    [⟨0, ⟨padding, padding, padding + left_width, height - padding⟩⟩,
     ⟨1, ⟨padding + left_width + gap, padding, width - padding, height - padding⟩⟩]

/-- `ThreeColumnLayout._calculate_slots` (split.py lines 141-164): each
column width is `int(available_width * (ratio / total_ratio))` and the
running `x` advances by `col_width + gap`. -/
def threeColumnSlots (fracs : ℚ × ℚ × ℚ) (width height padding gap : ℤ) : List Slot :=
  let available_width := width - 2 * padding - 2 * gap
  let total := fracs.1 + fracs.2.1 + fracs.2.2
  let w0 := truncQ ((available_width : ℚ) * (fracs.1 / total))
  let w1 := truncQ ((available_width : ℚ) * (fracs.2.1 / total))
  let w2 := truncQ ((available_width : ℚ) * (fracs.2.2 / total))
  let x0 := padding
  let x1 := x0 + w0 + gap
  let x2 := x1 + w1 + gap
  [⟨0, ⟨x0, padding, x0 + w0, height - padding⟩⟩,
   ⟨1, ⟨x1, padding, x1 + w1, height - padding⟩⟩,
   ⟨2, ⟨x2, padding, x2 + w2, height - padding⟩⟩]

/-- `HeroLayout._calculate_slots` (hero.py lines 41-75): slot 0 is the hero
strip of height `int(available_height * hero_ratio)`; the footer slots have
width `(available_width - (footer_slots - 1) * gap) // footer_slots` and all
extend down to `height - padding`. -/
def heroSlots (footer_slots : ℤ) (heroFrac : ℚ) (width height padding gap : ℤ) : List Slot :=
  let available_width := width - 2 * padding
  let available_height := height - 2 * padding - gap
  let hero_height := truncQ ((available_height : ℚ) * heroFrac)
  let footer_width := floorDiv (available_width - (footer_slots - 1) * gap) footer_slots
  let footer_y := padding + hero_height + gap
  ⟨0, ⟨padding, padding, width - padding, padding + hero_height⟩⟩ ::
    (List.range footer_slots.toNat).map fun (i : ℕ) =>
      ⟨(i : ℤ) + 1,
       ⟨padding + (i : ℤ) * (footer_width + gap), footer_y,
        padding + (i : ℤ) * (footer_width + gap) + footer_width, height - padding⟩⟩

/-- Python `text[-n:]` for `n ≥ 0`: the last `n` characters (the whole list
when `n` exceeds the length; note the embedded code only uses it with
`n > 0`, and this model also agrees with Python at `n = 0` because slicing
is never reached there). -/
def takeRight (n : ℕ) (xs : List Char) : List Char := xs.drop (xs.length - n)

/-- `truncate_text` (widgets/helpers.py lines 17-55), on the character list
of the string.  `available ≤ 0` in the source corresponds to
`max_chars ≤ ellipsis.length` here. -/
def truncate_text (text : List Char) (max_chars : ℕ) (style : String)
    (ellipsis : List Char) : List Char :=
  if text.length ≤ max_chars then text
  else if max_chars ≤ ellipsis.length then ellipsis.take max_chars
  else
    let available := max_chars - ellipsis.length
    if style = "middle" then
      let start_len := (available + 1) / 2
      let end_len := available - start_len
      if 0 < end_len then text.take start_len ++ ellipsis ++ takeRight end_len text
      else text.take start_len ++ ellipsis
    else if style = "start" then ellipsis ++ takeRight available text
    else text.take available ++ ellipsis

/-- A raw Python value held in an entity state or attribute, classified by
how `float(raw_value)` behaves on it: Python `None`, a value `float` parses
to an exact number (ints, floats, numeric strings), or a value on which
`float` raises `ValueError`/`TypeError`. -/
inductive Raw
  | pyNone
  | parseable (q : ℚ)
  | unparseable
deriving DecidableEq, Repr

/-- A Home Assistant `State`: the `state` value plus the `attributes` map
(modelled as an association list). -/
structure HAState where
  state : Raw
  attributes : List (String × Raw)
deriving DecidableEq, Repr

/-- Python `dict.get(key)`: `None` when the key is missing. -/
def lookupAttr (attrs : List (String × Raw)) (key : String) : Option Raw :=
  match attrs.find? (fun kv => kv.1 = key) with
  | some kv => some kv.2
  | none => none

/-- The result of Python `float(raw)`: `some q` when parsing succeeds,
`none` when `float` raises `ValueError`/`TypeError`. -/
def pyFloat : Raw → Option ℚ
  | .parseable q => some q
  | _ => none

/-- The `raw_value` expression of `extract_numeric` (helpers.py line 76):
`state.attributes.get(attribute) if attribute else state.state`.  A `none`
result models Python `None` from a missing attribute; note an empty-string
attribute name is falsy in Python and reads `state.state`. -/
def rawValue (st : HAState) (attrName : Option String) : Option Raw :=
  match attrName with
  | some a => if a = "" then some st.state else lookupAttr st.attributes a
  | none => some st.state

/-- `extract_numeric` (widgets/helpers.py lines 58-81): `default` when the
state is `None`, when `raw_value` is `None`, or when `float(raw_value)`
raises (suppressed `ValueError`/`TypeError`); otherwise the parsed float. -/
def extract_numeric (state : Option HAState) (attrName : Option String)
    (default : ℚ) : ℚ :=
  match state with
  | Option.none => default
  | some st =>
    match rawValue st attrName with
    | Option.none => default
    | some Raw.pyNone => default
    | some r =>
      match pyFloat r with
      | some q => q
      | Option.none => default

/-! ## Helper lemmas -/

lemma truncQ_eq_floor {q : ℚ} (h : 0 ≤ q) : truncQ q = ⌊q⌋ := if_pos h

lemma truncQ_nonneg {q : ℚ} (h : 0 ≤ q) : 0 ≤ truncQ q := by
  rw [truncQ_eq_floor h]
  exact Int.floor_nonneg.mpr h

lemma truncQ_le_255 {q : ℚ} (h0 : 0 ≤ q) (h : q ≤ 255) : truncQ q ≤ 255 := by
  rw [truncQ_eq_floor h0]
  have := Int.floor_le_floor (α := ℚ) h
  simpa using this

lemma dim_channel_mem {x : ℤ} {f : ℚ} (hx0 : 0 ≤ x) (hx1 : x ≤ 255)
    (hf0 : 0 ≤ f) (hf1 : f ≤ 1) :
    0 ≤ truncQ ((x : ℚ) * f) ∧ truncQ ((x : ℚ) * f) ≤ 255 := by
  have hx0' : (0 : ℚ) ≤ (x : ℚ) := by exact_mod_cast hx0
  have hx1' : (x : ℚ) ≤ 255 := by exact_mod_cast hx1
  have h0 : (0 : ℚ) ≤ (x : ℚ) * f := mul_nonneg hx0' hf0
  have h1 : (x : ℚ) * f ≤ 255 := by nlinarith
  exact ⟨truncQ_nonneg h0, truncQ_le_255 h0 h1⟩

lemma blend_channel_mem {a b : ℤ} {f : ℚ} (ha0 : 0 ≤ a) (ha1 : a ≤ 255)
    (hb0 : 0 ≤ b) (hb1 : b ≤ 255) (hf0 : 0 ≤ f) (hf1 : f ≤ 1) :
    0 ≤ truncQ ((a : ℚ) + ((b : ℚ) - (a : ℚ)) * f) ∧
      truncQ ((a : ℚ) + ((b : ℚ) - (a : ℚ)) * f) ≤ 255 := by
  have ha0' : (0 : ℚ) ≤ (a : ℚ) := by exact_mod_cast ha0
  have ha1' : (a : ℚ) ≤ 255 := by exact_mod_cast ha1
  have hb0' : (0 : ℚ) ≤ (b : ℚ) := by exact_mod_cast hb0
  have hb1' : (b : ℚ) ≤ 255 := by exact_mod_cast hb1
  have h0 : (0 : ℚ) ≤ (a : ℚ) + ((b : ℚ) - (a : ℚ)) * f := by
    nlinarith [mul_nonneg ha0' (by linarith : (0 : ℚ) ≤ 1 - f), mul_nonneg hb0' hf0]
  have h1 : (a : ℚ) + ((b : ℚ) - (a : ℚ)) * f ≤ 255 := by
    nlinarith [mul_nonneg (by linarith : (0 : ℚ) ≤ 255 - (a : ℚ))
        (by linarith : (0 : ℚ) ≤ 1 - f),
      mul_nonneg (by linarith : (0 : ℚ) ≤ 255 - (b : ℚ)) hf0]
  exact ⟨truncQ_nonneg h0, truncQ_le_255 h0 h1⟩

lemma clamp_idem {lo hi x : ℚ} (h : lo ≤ hi) :
    max lo (min hi (max lo (min hi x))) = max lo (min hi x) := by
  have h1 : lo ≤ max lo (min hi x) := le_max_left _ _
  have h2 : max lo (min hi x) ≤ hi := max_le h (min_le_left _ _)
  rw [min_eq_right h2, max_eq_right h1]

lemma splitEffective_idem (frac : ℚ) :
    splitEffective (splitEffective frac) = splitEffective frac :=
  clamp_idem (by norm_num)

lemma foldl_min_all {c : ℚ} :
    ∀ xs : List ℚ, (∀ v ∈ xs, v = c) → xs.foldl min c = c := by
  intro xs
  induction xs with
  | nil => intro _; rfl
  | cons x xs ih =>
    intro h
    have hx : x = c := h x (by simp)
    rw [List.foldl_cons, hx, min_self]
    exact ih fun v hv => h v (by simp [hv])

lemma listMin_all {c d : ℚ} {rest : List ℚ} (h : ∀ v ∈ d :: rest, v = c) :
    listMin (d :: rest) = c := by
  have hd : d = c := h d (by simp)
  show rest.foldl min d = c
  rw [hd]
  exact foldl_min_all rest fun v hv => h v (by simp [hv])

/-! ## Claim theorems -/

/-- C1: `draw_bar` does NOT clamp the fill width to the bounding box.  At
the bounding rectangle `(0, 0, 100, 10)` (so `x1 < x2`) with
`percent = 200`, the code computes `fill_width = int(100 * 200 / 100) = 200`
and draws the fill rectangle `(0, 0, 200, 10)`, whose right edge `200`
exceeds `x2 = 100`; the clamping the claim asserts is absent.  The
`percent = 0` half of the claim does hold: only the background is drawn. -/
theorem C1_draw_bar_overflow :
    (draw_bar ⟨0, 0, 100, 10⟩ 200).fill = some ⟨0, 0, 200, 10⟩ ∧
    (⟨0, 0, 100, 10⟩ : Rect).x2 = 100 ∧ ¬ ((200 : ℤ) ≤ 100) ∧
    (draw_bar ⟨0, 0, 100, 10⟩ 0).fill = none := by
  refine ⟨?_, rfl, by decide, ?_⟩
  · norm_num [draw_bar, truncQ]
  · norm_num [draw_bar, truncQ]

/-- C3 counterexample: for `factor = 2` (outside `[0, 1]`) the channels of
`dim_color` are NOT clamped to `[0, 255]`: `dim_color((200,0,0), 2)`
returns channel `400 > 255`, and similarly for `blend_color`. -/
theorem C3_no_clamp_counterexample :
    dim_color (200, 0, 0) 2 = (400, 0, 0) ∧
    blend_color (0, 0, 0) (200, 0, 0) 2 = (400, 0, 0) ∧
    ¬ ((400 : ℤ) ≤ 255) := by
  refine ⟨?_, ?_, by decide⟩
  · norm_num [dim_color, truncQ]
  · norm_num [blend_color, truncQ]

/-- C3 (amended): `dim_color` scales each channel linearly by `factor` and
`blend_color` interpolates each channel linearly, both truncated by
`int()`; the code applies no clamping, so the output channels are
guaranteed to lie in `[0, 255]` only under the precondition that `factor`
lies in `[0, 1]` and the input channels lie in `[0, 255]` (in which case
monotonicity keeps them in range). -/
theorem C3_color_linear (c c1 c2 : ℤ × ℤ × ℤ) (f : ℚ)
    (hf0 : 0 ≤ f) (hf1 : f ≤ 1)
    (hc : validChannels c) (h1 : validChannels c1) (h2 : validChannels c2) :
    dim_color c f
      = (truncQ ((c.1 : ℚ) * f), truncQ ((c.2.1 : ℚ) * f), truncQ ((c.2.2 : ℚ) * f)) ∧
    blend_color c1 c2 f
      = (truncQ ((c1.1 : ℚ) + ((c2.1 : ℚ) - (c1.1 : ℚ)) * f),
         truncQ ((c1.2.1 : ℚ) + ((c2.2.1 : ℚ) - (c1.2.1 : ℚ)) * f),
         truncQ ((c1.2.2 : ℚ) + ((c2.2.2 : ℚ) - (c1.2.2 : ℚ)) * f)) ∧
    validChannels (dim_color c f) ∧ validChannels (blend_color c1 c2 f) := by
  obtain ⟨a1, a2, a3, a4, a5, a6⟩ := hc
  obtain ⟨b1, b2, b3, b4, b5, b6⟩ := h1
  obtain ⟨d1, d2, d3, d4, d5, d6⟩ := h2
  refine ⟨rfl, rfl, ?_, ?_⟩
  · exact ⟨(dim_channel_mem a1 a2 hf0 hf1).1, (dim_channel_mem a1 a2 hf0 hf1).2,
      (dim_channel_mem a3 a4 hf0 hf1).1, (dim_channel_mem a3 a4 hf0 hf1).2,
      (dim_channel_mem a5 a6 hf0 hf1).1, (dim_channel_mem a5 a6 hf0 hf1).2⟩
  · exact ⟨(blend_channel_mem b1 b2 d1 d2 hf0 hf1).1,
      (blend_channel_mem b1 b2 d1 d2 hf0 hf1).2,
      (blend_channel_mem b3 b4 d3 d4 hf0 hf1).1,
      (blend_channel_mem b3 b4 d3 d4 hf0 hf1).2,
      (blend_channel_mem b5 b6 d5 d6 hf0 hf1).1,
      (blend_channel_mem b5 b6 d5 d6 hf0 hf1).2⟩

/-- C3 witness: the amended theorem applied at concrete colors and
`factor = 1/2`. -/
theorem C3_color_linear_witness :
    validChannels (dim_color (10, 20, 30) (1/2)) ∧
    validChannels (blend_color (0, 100, 200) (255, 0, 50) (1/2)) := by
  have h := C3_color_linear (10, 20, 30) (0, 100, 200) (255, 0, 50) (1/2)
    (by norm_num) (by norm_num) (by decide) (by decide) (by decide)
  exact ⟨h.2.2.1, h.2.2.2⟩

/-- C10: under the precondition `factor ∈ [0, 1]` and all input channels in
`[0, 255]`, the channels produced by `dim_color` and `blend_color` lie in
`[0, 255]`, with no explicit clamping in the code: the bound follows from
monotonicity of the linear arithmetic and of `int()` truncation. -/
theorem C10_color_in_range (c c1 c2 : ℤ × ℤ × ℤ) (f : ℚ)
    (hf0 : 0 ≤ f) (hf1 : f ≤ 1)
    (hc : validChannels c) (h1 : validChannels c1) (h2 : validChannels c2) :
    validChannels (dim_color c f) ∧ validChannels (blend_color c1 c2 f) := by
  obtain ⟨a1, a2, a3, a4, a5, a6⟩ := hc
  obtain ⟨b1, b2, b3, b4, b5, b6⟩ := h1
  obtain ⟨d1, d2, d3, d4, d5, d6⟩ := h2
  constructor
  · exact ⟨(dim_channel_mem a1 a2 hf0 hf1).1, (dim_channel_mem a1 a2 hf0 hf1).2,
      (dim_channel_mem a3 a4 hf0 hf1).1, (dim_channel_mem a3 a4 hf0 hf1).2,
      (dim_channel_mem a5 a6 hf0 hf1).1, (dim_channel_mem a5 a6 hf0 hf1).2⟩
  · exact ⟨(blend_channel_mem b1 b2 d1 d2 hf0 hf1).1,
      (blend_channel_mem b1 b2 d1 d2 hf0 hf1).2,
      (blend_channel_mem b3 b4 d3 d4 hf0 hf1).1,
      (blend_channel_mem b3 b4 d3 d4 hf0 hf1).2,
      (blend_channel_mem b5 b6 d5 d6 hf0 hf1).1,
      (blend_channel_mem b5 b6 d5 d6 hf0 hf1).2⟩

/-- C10 witness: the theorem applied at concrete colors and
`factor = 3/10`. -/
theorem C10_color_in_range_witness :
    validChannels (dim_color (255, 128, 1) (3/10)) ∧
    validChannels (blend_color (17, 34, 51) (200, 100, 0) (3/10)) :=
  C10_color_in_range (255, 128, 1) (17, 34, 51) (200, 100, 0) (3/10)
    (by norm_num) (by norm_num) (by decide) (by decide) (by decide)

/-- C5: `SplitLayout` clamps the requested fraction to `[0.2, 0.8]`
(`max(0.2, min(0.8, ratio))`), mapping a request of `0` to `1/5` and of `1`
to `4/5`; the produced slots are those computed from the clamped value (the
raw input is never used unclamped), and the layout always produces its two
slots — out-of-range parameters are clamped silently, never rejected. -/
theorem C5_split_clamp (horizontal : Bool) (frac : ℚ) (width height padding gap : ℤ) :
    splitEffective frac = max (1/5) (min (4/5) frac) ∧
    splitEffective 0 = 1/5 ∧
    splitEffective 1 = 4/5 ∧
    splitSlots horizontal frac width height padding gap
      = splitSlots horizontal (splitEffective frac) width height padding gap ∧
    (splitSlots horizontal frac width height padding gap).length = 2 := by
  refine ⟨rfl, ?_, ?_, ?_, ?_⟩
  · rw [splitEffective, min_eq_right (by norm_num), max_eq_left (by norm_num)]
  · rw [splitEffective, min_eq_left (by norm_num), max_eq_right (by norm_num)]
  · unfold splitSlots
    rw [splitEffective_idem]
  · cases horizontal <;> simp [splitSlots]

/-- C2 counterexample: for `ThreeColumnLayout` with ratios `(1, 1, 1)` on a
240×240 display with padding 8 and gap 8, each column width is
`int(208 * (1/3)) = 69` and the last column's right edge is
`8 + 69 + 8 + 69 + 8 + 69 = 231`, which is NOT `width - padding = 232`:
the rounding slack is lost after the last column, not absorbed by its
edge. -/
theorem C2_threeColumn_counterexample :
    ((threeColumnSlots (1, 1, 1) 240 240 8 8).getD 2 ⟨0, ⟨0, 0, 0, 0⟩⟩).rect.x2 = 231 ∧
    (231 : ℤ) ≠ 240 - 8 := by
  constructor
  · norm_num [threeColumnSlots, truncQ, List.getD]
  · decide

/-- C2 (amended): slot width/height division truncates toward zero and no
remainder pixels are redistributed among intermediate slots; the last
slot's far boundary equals `width - padding` (resp. `height - padding`)
for both Split orientations, and the Hero footer slots all end at
`height - padding` along the divided height axis — but ThreeColumn's
columns (and Hero's footer columns) end at the accumulated position plus
their truncated width, which can fall short of `width - padding`. -/
theorem C2_rounding_policy (width height padding gap : ℤ) (frac : ℚ)
    (fracs : ℚ × ℚ × ℚ) (footer_slots : ℤ) (heroFrac : ℚ) :
    ((splitSlots false frac width height padding gap).getD 1 ⟨0, ⟨0, 0, 0, 0⟩⟩).rect.x2
      = width - padding ∧
    ((splitSlots true frac width height padding gap).getD 1 ⟨0, ⟨0, 0, 0, 0⟩⟩).rect.y2
      = height - padding ∧
    (((heroSlots footer_slots heroFrac width height padding gap).drop 1).map
        fun s => s.rect.y2) = List.replicate footer_slots.toNat (height - padding) ∧
    ((threeColumnSlots fracs width height padding gap).map fun s => s.rect.x2 - s.rect.x1)
      = [truncQ (((width - 2 * padding - 2 * gap : ℤ) : ℚ)
            * (fracs.1 / (fracs.1 + fracs.2.1 + fracs.2.2))),
         truncQ (((width - 2 * padding - 2 * gap : ℤ) : ℚ)
            * (fracs.2.1 / (fracs.1 + fracs.2.1 + fracs.2.2))),
         truncQ (((width - 2 * padding - 2 * gap : ℤ) : ℚ)
            * (fracs.2.2 / (fracs.1 + fracs.2.1 + fracs.2.2)))] ∧
    ((threeColumnSlots fracs width height padding gap).getD 1 ⟨0, ⟨0, 0, 0, 0⟩⟩).rect.x1
      = ((threeColumnSlots fracs width height padding gap).getD 0 ⟨0, ⟨0, 0, 0, 0⟩⟩).rect.x2
          + gap ∧
    ((threeColumnSlots fracs width height padding gap).getD 2 ⟨0, ⟨0, 0, 0, 0⟩⟩).rect.x1
      = ((threeColumnSlots fracs width height padding gap).getD 1 ⟨0, ⟨0, 0, 0, 0⟩⟩).rect.x2
          + gap := by
  refine ⟨by simp [splitSlots], by simp [splitSlots], ?_, ?_,
    by simp [threeColumnSlots], by simp [threeColumnSlots]⟩
  · simp only [heroSlots, List.drop_succ_cons, List.drop_zero, List.map_map]
    refine List.eq_replicate_iff.mpr ⟨by simp, ?_⟩
    intro b hb
    obtain ⟨i, _, rfl⟩ := List.mem_map.mp hb
    rfl
  · simp [threeColumnSlots, add_sub_cancel_left]

/-- C4: when all data values are equal (so `max == min`), the sparkline
normalization falls back to `range = 1`, and every control point's
y-coordinate equals `y2` — the flat line sits on the bottom edge of the
bounding rectangle, not at its vertical center. -/
theorem C4_flat_sparkline_bottom (rect : Rect) (data : List ℚ) (c : ℚ)
    (hlen : 2 ≤ data.length) (hall : ∀ v ∈ data, v = c) :
    (sparklineControlPoints rect data).map Prod.snd
      = List.replicate data.length ((rect.y2 : ℚ)) := by
  rcases data with _ | ⟨d, rest⟩
  · simp at hlen
  · have hmin : listMin (d :: rest) = c := listMin_all hall
    simp only [sparklineControlPoints, List.map_map]
    rw [List.map_congr_left (g := Function.const _ ((rect.y2 : ℚ))) ?_]
    · rw [List.map_const, List.enum_length]
    · rintro ⟨i, v⟩ hp
      obtain ⟨hlt, hx⟩ := List.mem_enum hp
      have hmem : v ∈ d :: rest := List.mem_iff_getElem.mpr ⟨i, hlt, hx.symm⟩
      have hv : v = c := hall v hmem
      simp [Function.comp, Function.const, hv, hmin]

/-- C4 witness: the theorem applied to the 3-element constant list
`[5, 5, 5]` in the box `(0, 0, 100, 50)`: all control points sit at
`y = 50`. -/
theorem C4_flat_sparkline_bottom_witness :
    (sparklineControlPoints ⟨0, 0, 100, 50⟩ [5, 5, 5]).map Prod.snd
      = List.replicate 3 ((50 : ℤ) : ℚ) := by
  have h := C4_flat_sparkline_bottom ⟨0, 0, 100, 50⟩ [5, 5, 5] 5 (by decide)
    (by decide)
  simpa using h

/-- C7: `draw_sparkline` draws nothing (and raises nothing) for empty or
single-element data; for exactly 2 data points, even with `smooth = true`,
the drawn polyline is exactly the two normalized control points (spline
interpolation requires at least 3 control points), whose x-coordinates are
the box edges `x1` and `x2` — i.e. the straight segment between the two
normalized points. -/
theorem C7_sparkline_small_data (rect : Rect) (smooth : Bool) (v a b : ℚ) :
    draw_sparkline rect [] smooth = none ∧
    draw_sparkline rect [v] smooth = none ∧
    draw_sparkline rect [a, b] true = some (sparklineControlPoints rect [a, b]) ∧
    draw_sparkline rect [a, b] true = draw_sparkline rect [a, b] false ∧
    (sparklineControlPoints rect [a, b]).length = 2 ∧
    ((sparklineControlPoints rect [a, b]).getD 0 (0, 0)).1 = (rect.x1 : ℚ) ∧
    ((sparklineControlPoints rect [a, b]).getD 1 (0, 0)).1 = (rect.x2 : ℚ) := by
  have henum : ([a, b] : List ℚ).enum = [(0, a), (1, b)] := rfl
  have hlen : (sparklineControlPoints rect [a, b]).length = 2 := by
    simp [sparklineControlPoints, henum]
  refine ⟨by simp [draw_sparkline], by simp [draw_sparkline], ?_, ?_, hlen, ?_, ?_⟩
  · simp [draw_sparkline, hlen]
  · simp [draw_sparkline, hlen]
  · simp [sparklineControlPoints, henum]
  · simp [sparklineControlPoints, henum]
    ring

/-- C6: for text longer than `max_chars` (with the ellipsis fitting in the
budget), style `"end"` keeps the leading `max_chars - len(ellipsis)`
characters, `"start"` keeps the trailing ones, and `"middle"` keeps
`(available + 1) // 2` characters from the start and the remaining
`available - (available + 1) // 2` from the end; in particular with `".."`
the spec's three examples hold. -/
theorem C6_truncate_styles (text ellipsis : List Char) (max_chars : ℕ)
    (hlen : max_chars < text.length) (hel : ellipsis.length < max_chars) :
    truncate_text text max_chars "end" ellipsis
      = text.take (max_chars - ellipsis.length) ++ ellipsis ∧
    truncate_text text max_chars "start" ellipsis
      = ellipsis ++ takeRight (max_chars - ellipsis.length) text ∧
    truncate_text text max_chars "middle" ellipsis
      = text.take ((max_chars - ellipsis.length + 1) / 2) ++ ellipsis
        ++ takeRight (max_chars - ellipsis.length - (max_chars - ellipsis.length + 1) / 2)
            text ∧
    truncate_text "abcdefghij".toList 6 "end" "..".toList = "abcd..".toList ∧
    truncate_text "abcdefghij".toList 6 "start" "..".toList = "..ghij".toList ∧
    truncate_text "abcdefghij".toList 7 "middle" "..".toList = "abc..ij".toList := by
  have h1 : ¬ text.length ≤ max_chars := by omega
  have h2 : ¬ max_chars ≤ ellipsis.length := by omega
  refine ⟨?_, ?_, ?_, by decide, by decide, by decide⟩
  · simp [truncate_text, h1, h2]
  · simp [truncate_text, h1, h2]
  · rcases Nat.eq_zero_or_pos
        (max_chars - ellipsis.length - (max_chars - ellipsis.length + 1) / 2) with hz | hz
    · simp [truncate_text, h1, h2, hz, takeRight]
    · simp [truncate_text, h1, h2, hz]

/-- C6 witness: the general part of the theorem applied at
`text = "abcdefgh"`, `max_chars = 5`, ellipsis `".."`. -/
theorem C6_truncate_styles_witness :
    truncate_text "abcdefgh".toList 5 "end" "..".toList = "abc..".toList := by
  have h := (C6_truncate_styles "abcdefgh".toList "..".toList 5 (by decide) (by decide)).1
  rw [h]
  decide

/-- C9: `truncate_text` returns the text unchanged when it already fits the
budget, and otherwise returns at most `max_chars` characters — including
the degenerate case `max_chars < len(ellipsis)`, where the ellipsis itself
is truncated to `max_chars` characters. -/
theorem C9_truncate_budget (text ellipsis : List Char) (max_chars : ℕ) (style : String) :
    (text.length ≤ max_chars → truncate_text text max_chars style ellipsis = text) ∧
    (max_chars < text.length →
      (truncate_text text max_chars style ellipsis).length ≤ max_chars) := by
  constructor
  · intro h
    simp [truncate_text, h]
  · intro h
    simp only [truncate_text, takeRight]
    split_ifs <;>
      (try simp only [List.length_append, List.length_take, List.length_drop]) <;> omega

/-- C9 witness: the theorem applied at concrete inputs — a short text is
returned unchanged, a long text is cut to the budget. -/
theorem C9_truncate_budget_witness :
    truncate_text "ab".toList 5 "end" "..".toList = "ab".toList ∧
    (truncate_text "abcdefghij".toList 4 "middle" "..".toList).length ≤ 4 ∧
    (truncate_text "abcdefghij".toList 1 "end" "..".toList).length ≤ 1 :=
  ⟨(C9_truncate_budget "ab".toList "..".toList 5 "end").1 (by decide),
   (C9_truncate_budget "abcdefghij".toList "..".toList 4 "middle").2 (by decide),
   (C9_truncate_budget "abcdefghij".toList "..".toList 1 "end").2 (by decide)⟩

/-- C8: `extract_numeric` is total (the embedding is a total function, as
the source suppresses `ValueError`/`TypeError`): a missing state, a missing
raw value, or an unparseable raw value each yield the caller-supplied
default, and a parseable raw value yields the parsed float. -/
theorem C8_extract_numeric_cases (state : Option HAState) (attrName : Option String)
    (dflt : ℚ) :
    (state = Option.none → extract_numeric state attrName dflt = dflt) ∧
    ∀ st, state = some st →
      (rawValue st attrName = Option.none → extract_numeric state attrName dflt = dflt) ∧
      (∀ r, rawValue st attrName = some r → pyFloat r = Option.none →
        extract_numeric state attrName dflt = dflt) ∧
      (∀ r q, rawValue st attrName = some r → pyFloat r = some q →
        extract_numeric state attrName dflt = q) := by
  refine ⟨fun h => by subst h; rfl, fun st hst => ?_⟩
  subst hst
  refine ⟨fun h => by simp [extract_numeric, h], fun r hr hpf => ?_, fun r q hr hpf => ?_⟩
  · rcases r <;> simp_all [extract_numeric, pyFloat]
  · rcases r <;> simp_all [extract_numeric, pyFloat]

/-- C8 witness: the theorem applied at concrete states — a parseable state
value, an absent state, and a missing attribute. -/
theorem C8_extract_numeric_cases_witness :
    extract_numeric (some ⟨Raw.parseable 42, []⟩) Option.none 7 = 42 ∧
    extract_numeric Option.none Option.none 7 = 7 ∧
    extract_numeric (some ⟨Raw.unparseable, []⟩) (some "battery") 7 = 7 := by
  refine ⟨?_, ?_, ?_⟩
  · exact ((C8_extract_numeric_cases (some ⟨Raw.parseable 42, []⟩) Option.none 7).2
      ⟨Raw.parseable 42, []⟩ rfl).2.2 (Raw.parseable 42) 42 rfl rfl
  · exact (C8_extract_numeric_cases Option.none Option.none 7).1 rfl
  · exact ((C8_extract_numeric_cases (some ⟨Raw.unparseable, []⟩) (some "battery") 7).2
      ⟨Raw.unparseable, []⟩ rfl).1 (by simp [rawValue, lookupAttr])
